import Mathlib

/-!
# CHIP-8 emulator core — shallow embedding

A shallow embedding of the CHIP-8 emulator core (`src/main.rs`):
`ChipMemory`, `ChipRegisters`, `ChipDisplay`, `Opcode` decoding and the
`ChipSystem::ex_opcode` dispatch engine.

Modelling conventions:
* Machine integers (`u8`, `u16`, `usize`) are `Nat`, with explicit
  `% 2 ^ w` / bounds checks exactly where the Rust arithmetic wraps or
  traps.  The Rust crate is built with the default (debug) profile, in
  which arithmetic overflow of `+`, `-`, `+=` is a panic; those
  operations are therefore modelled as fallible (`ChipErr.arithOverflow`).
  Explicitly widened arithmetic (the `u16` intermediate of opcode 0x8xy4,
  `& 0xff` masking, `u8` shifts) cannot trap and is modelled totally.
* `Vec<T>` is `List T`; the panicking index operator `v[i]` is modelled
  with an explicit bounds check returning `ChipErr.outOfBounds` (for the
  call-stack accesses the panic sites are named `stackOverflow` /
  `stackUnderflow`, following the error taxonomy of the specification,
  §7: they occur exactly on a push beyond 16 entries / a pop from an
  empty stack).
* Panics (`panic!("Invalid Opcode…")`) are `ChipErr.invalidInstruction`.
* The pseudo-random byte of opcode 0xC (`rand::thread_rng`) is an
  external collaborator and is passed in as an explicit argument.
-/

namespace Chip8

/-- The failure modes of the engine: every Rust panic site is mapped to
one of these constructors (see the module docstring). -/
inductive ChipErr where
  | outOfBounds
  | stackOverflow
  | stackUnderflow
  | invalidInstruction
  | arithOverflow
  deriving DecidableEq

/-- `struct ChipMemory { ram: Vec<u8>, start: usize }`. -/
structure ChipMemory where
  ram : List Nat
  start : Nat
  deriving DecidableEq

/-- `ChipMemory::init()`: 4096 zero bytes, program start offset 512. -/
def ChipMemory.init : ChipMemory :=
  { ram := List.replicate 4096 0, start := 512 }

/-- `ChipMemory::set_byte(loc, val)`: `self.ram[loc as usize] = val`.
The `Vec` index panics when `loc ≥ ram.len()`. -/
def ChipMemory.set_byte (m : ChipMemory) (loc val : Nat) : Except ChipErr ChipMemory :=
  if loc < m.ram.length then
    .ok { m with ram := m.ram.set loc val }
  else
    .error .outOfBounds

/-- `ChipMemory::get_byte(loc)`: `self.ram[loc as usize]`. -/
def ChipMemory.get_byte (m : ChipMemory) (loc : Nat) : Except ChipErr Nat :=
  if h : loc < m.ram.length then
    .ok (m.ram.get ⟨loc, h⟩)
  else
    .error .outOfBounds

/-- The write loop of `ChipMemory::load_bytes`:
`for i in 0..len { self.ram[i + self.start] = rom[i] }`, written
byte-by-byte.  The result pairs the memory contents with a success flag:
`false` records that the `Vec` index paniced (index out of bounds), and
the paired memory is the contents at the moment of the panic — the
in-place mutations performed before the panic are retained. -/
def loadBytesAux (ram : List Nat) (pos : Nat) : List Nat → List Nat × Bool
  | [] => (ram, true)
  | b :: rest =>
    if pos < ram.length then
      loadBytesAux (ram.set pos b) (pos + 1) rest
    else
      (ram, false)

/-- `ChipMemory::load_bytes(rom)`: copies `rom` into `ram` starting at
`self.start`, with no capacity check (the `Vec` index panics on the
first out-of-bounds write).  The `Bool` is the success flag of
`loadBytesAux`. -/
def ChipMemory.load_bytes (m : ChipMemory) (rom : List Nat) : ChipMemory × Bool :=
  let r := loadBytesAux m.ram m.start rom
  ({ m with ram := r.1 }, r.2)

/-- `struct ChipRegisters`. -/
structure ChipRegisters where
  gp_reg : List Nat
  stack : List Nat
  i_reg : Nat
  d_reg : Nat
  s_reg : Nat
  pc_reg : Nat
  sp_reg : Nat
  deriving DecidableEq

/-- `ChipRegisters::init()`. -/
def ChipRegisters.init : ChipRegisters :=
  { gp_reg := List.replicate 16 0
    stack := List.replicate 16 0
    i_reg := 0
    d_reg := 0
    s_reg := 0
    pc_reg := 0
    sp_reg := 0 }

/-- `ChipRegisters::set_gp(index, value)`: `self.gp_reg[index] = value`. -/
def ChipRegisters.set_gp (r : ChipRegisters) (index value : Nat) : Except ChipErr ChipRegisters :=
  if index < r.gp_reg.length then
    .ok { r with gp_reg := r.gp_reg.set index value }
  else
    .error .outOfBounds

/-- `ChipRegisters::get_gp(index)`: `self.gp_reg[index]`. -/
def ChipRegisters.get_gp (r : ChipRegisters) (index : Nat) : Except ChipErr Nat :=
  if h : index < r.gp_reg.length then
    .ok (r.gp_reg.get ⟨index, h⟩)
  else
    .error .outOfBounds

/-- `ChipRegisters::add_gp(index, value)`: `self.gp_reg[index] += value`
(`u8` addition, traps on overflow). -/
def ChipRegisters.add_gp (r : ChipRegisters) (index value : Nat) : Except ChipErr ChipRegisters :=
  if h : index < r.gp_reg.length then
    let cur := r.gp_reg.get ⟨index, h⟩
    if cur + value < 256 then
      .ok { r with gp_reg := r.gp_reg.set index (cur + value) }
    else
      .error .arithOverflow
  else
    .error .outOfBounds

/-- `ChipRegisters::set_i(value)`. -/
def ChipRegisters.set_i (r : ChipRegisters) (value : Nat) : ChipRegisters :=
  { r with i_reg := value }

/-- `ChipRegisters::get_i()`. -/
def ChipRegisters.get_i (r : ChipRegisters) : Nat :=
  r.i_reg

/-- `ChipRegisters::set_pc(value)`. -/
def ChipRegisters.set_pc (r : ChipRegisters) (value : Nat) : ChipRegisters :=
  { r with pc_reg := value }

/-- `ChipRegisters::incr_pc()`: `self.pc_reg += 2` (`u16` addition,
traps when the result exceeds 0xFFFF). -/
def ChipRegisters.incr_pc (r : ChipRegisters) : Except ChipErr ChipRegisters :=
  if r.pc_reg + 2 < 65536 then
    .ok { r with pc_reg := r.pc_reg + 2 }
  else
    .error .arithOverflow

/-- `ChipRegisters::get_pc()`. -/
def ChipRegisters.get_pc (r : ChipRegisters) : Nat :=
  r.pc_reg

/-- `ChipRegisters::get_d()`. -/
def ChipRegisters.get_d (r : ChipRegisters) : Nat :=
  r.d_reg

/-- `ChipRegisters::set_d(value)`. -/
def ChipRegisters.set_d (r : ChipRegisters) (value : Nat) : ChipRegisters :=
  { r with d_reg := value }

/-- `ChipRegisters::get_s()`. -/
def ChipRegisters.get_s (r : ChipRegisters) : Nat :=
  r.s_reg

/-- `ChipRegisters::set_s(value)`. -/
def ChipRegisters.set_s (r : ChipRegisters) (value : Nat) : ChipRegisters :=
  { r with s_reg := value }

/-- `ChipRegisters::decr_d()`. -/
def ChipRegisters.decr_d (r : ChipRegisters) : ChipRegisters :=
  if r.d_reg > 0 then { r with d_reg := r.d_reg - 1 } else r

/-- `ChipRegisters::decr_s()`. -/
def ChipRegisters.decr_s (r : ChipRegisters) : ChipRegisters :=
  if r.s_reg > 0 then { r with s_reg := r.s_reg - 1 } else r

/-- `ChipRegisters::push_stack(addr)`:
`self.stack[self.sp_reg] = addr; self.sp_reg += 1;`.  The `Vec` index
panics exactly when the stack already holds `stack.len()` (= 16)
addresses; per the specification's taxonomy this failure is
`StackOverflow`. -/
def ChipRegisters.push_stack (r : ChipRegisters) (addr : Nat) : Except ChipErr ChipRegisters :=
  if r.sp_reg < r.stack.length then
    .ok { r with stack := r.stack.set r.sp_reg addr, sp_reg := r.sp_reg + 1 }
  else
    .error .stackOverflow

/-- `ChipRegisters::pop_stack()`:
`self.sp_reg -= 1; let addr = self.stack[self.sp_reg];`.  The `usize`
decrement traps when `sp_reg = 0` (pop from empty = `StackUnderflow`);
the subsequent `Vec` index is bounds-checked as everywhere else. -/
def ChipRegisters.pop_stack (r : ChipRegisters) : Except ChipErr (Nat × ChipRegisters) :=
  if r.sp_reg = 0 then
    .error .stackUnderflow
  else
    let sp := r.sp_reg - 1
    if h : sp < r.stack.length then
      .ok (r.stack.get ⟨sp, h⟩, { r with sp_reg := sp })
    else
      .error .outOfBounds

/-- `struct ChipDisplay { display: Vec<bool>, divider: String }`. -/
structure ChipDisplay where
  display : List Bool
  divider : String
  deriving DecidableEq

/-- `ChipDisplay::init()`: 2048 pixels off, a 64-dash divider string. -/
def ChipDisplay.init : ChipDisplay :=
  { display := List.replicate 2048 false
    divider := String.mk (List.replicate 64 '-') }

/-- `ChipDisplay::clear_display()`: the nested `for y in 0..32 { for x in
0..64 { display[y*64+x] = false } }` loop. -/
def ChipDisplay.clear_display (d : ChipDisplay) : ChipDisplay :=
  let rows := fun (dy : List Bool) (y : Nat) =>
    (List.range 64).foldl (fun dx x => dx.set (y * 64 + x) false) dy
  { d with display := (List.range 32).foldl rows d.display }

/-- `struct Opcode { h1, v1, v2, v3: u16 }`. -/
structure Opcode where
  h1 : Nat
  v1 : Nat
  v2 : Nat
  v3 : Nat
  deriving DecidableEq

/-- `Opcode::new(opcode)`: split the 16-bit word into four 4-bit fields. -/
def Opcode.new (opcode : Nat) : Opcode :=
  { h1 := (opcode >>> 12) &&& 0xf
    v1 := (opcode >>> 8) &&& 0xf
    v2 := (opcode >>> 4) &&& 0xf
    v3 := opcode &&& 0xf }

/-- `struct ChipSystem`. -/
structure ChipSystem where
  registers : ChipRegisters
  display : ChipDisplay
  ram : ChipMemory
  deriving DecidableEq

/-- The write loop of opcode 0xFx55:
`for loc in 0..x_range { cur_reg = get_gp(loc); ram.set_byte(i_val + loc, cur_reg) }`,
over an explicit list of loop indices.  The `u16` addition `i_val + loc`
traps on overflow before the bounds-checked store. -/
def ChipSystem.storeRegs (sys : ChipSystem) (i_val : Nat) : List Nat → Except ChipErr ChipSystem
  | [] => .ok sys
  | loc :: rest => do
    let cur ← sys.registers.get_gp loc
    if i_val + loc < 65536 then
      let ram ← sys.ram.set_byte (i_val + loc) cur
      ChipSystem.storeRegs { sys with ram := ram } i_val rest
    else
      .error .arithOverflow

/-- The read loop of opcode 0xFx65:
`for loc in 0..x_range { cur_reg = ram.get_byte(loc); set_gp(i_val as usize + loc, cur_reg) }`
(reads from absolute addresses `0..x_range`, writes to register index
`i_val + loc`, both exactly as the source does). -/
def ChipSystem.loadRegs (sys : ChipSystem) (i_val : Nat) : List Nat → Except ChipErr ChipSystem
  | [] => .ok sys
  | loc :: rest => do
    let cur ← sys.ram.get_byte loc
    let regs ← sys.registers.set_gp (i_val + loc) cur
    ChipSystem.loadRegs { sys with registers := regs } i_val rest

/-- The body of `ChipSystem::ex_opcode` after `let comps = Opcode::new(opcode)`:
the two-level dispatch `match` on the decoded fields.  Each arm is a
direct transcription of the corresponding Rust arm (including the
unimplemented `0xD`, `0xE_9E`, `0xE_A1`, `0xF_0A`, `0xF_29` no-op arms
and the `panic!("Invalid Opcode…")` catch-alls). -/
def ChipSystem.ex_decoded (sys : ChipSystem) (rand : Nat) (comps : Opcode) :
    Except ChipErr ChipSystem :=
  match comps.h1 with
  | 0x0 =>
    match comps.v3 with
    | 0 => .ok { sys with display := sys.display.clear_display }
    | 14 => do
      let (pc, regs) ← sys.registers.pop_stack
      .ok { sys with registers := regs.set_pc pc }
    | _ => .error .invalidInstruction
  | 0x1 =>
    let pc := (comps.v1 <<< 8) + (comps.v2 <<< 4) + comps.v3
    .ok { sys with registers := sys.registers.set_pc pc }
  | 0x2 => do
    let pc := (comps.v1 <<< 8) + (comps.v2 <<< 4) + comps.v3
    let regs ← sys.registers.push_stack pc
    .ok { sys with registers := regs }
  | 0x3 => do
    let comp_val := (comps.v2 <<< 4) + comps.v3
    let reg_val ← sys.registers.get_gp comps.v1
    if comp_val = reg_val then
      let regs ← sys.registers.incr_pc
      .ok { sys with registers := regs }
    else
      .ok sys
  | 0x4 => do
    let comp_val := (comps.v2 <<< 4) + comps.v3
    let reg_val ← sys.registers.get_gp comps.v1
    if comp_val ≠ reg_val then
      let regs ← sys.registers.incr_pc
      .ok { sys with registers := regs }
    else
      .ok sys
  | 0x5 => do
    let reg_x_val ← sys.registers.get_gp comps.v1
    let reg_y_val ← sys.registers.get_gp comps.v2
    if reg_x_val = reg_y_val then
      let regs ← sys.registers.incr_pc
      .ok { sys with registers := regs }
    else
      .ok sys
  | 0x6 => do
    let value := (comps.v2 <<< 4) + comps.v3
    let regs ← sys.registers.set_gp comps.v1 value
    .ok { sys with registers := regs }
  | 0x7 => do
    let value := (comps.v2 <<< 4) + comps.v3
    let regs ← sys.registers.add_gp comps.v1 value
    .ok { sys with registers := regs }
  | 0x8 =>
    match comps.v3 with
    | 0x0 => do
      let reg_y_val ← sys.registers.get_gp comps.v2
      let regs ← sys.registers.set_gp comps.v1 reg_y_val
      .ok { sys with registers := regs }
    | 0x1 => do
      let reg_x_val ← sys.registers.get_gp comps.v1
      let reg_y_val ← sys.registers.get_gp comps.v2
      let regs ← sys.registers.set_gp comps.v1 (reg_x_val ||| reg_y_val)
      .ok { sys with registers := regs }
    | 0x2 => do
      let reg_x_val ← sys.registers.get_gp comps.v1
      let reg_y_val ← sys.registers.get_gp comps.v2
      let regs ← sys.registers.set_gp comps.v1 (reg_x_val &&& reg_y_val)
      .ok { sys with registers := regs }
    | 0x3 => do
      let reg_x_val ← sys.registers.get_gp comps.v1
      let reg_y_val ← sys.registers.get_gp comps.v2
      let regs ← sys.registers.set_gp comps.v1 (reg_x_val ^^^ reg_y_val)
      .ok { sys with registers := regs }
    | 0x4 => do
      let reg_x_val ← sys.registers.get_gp comps.v1
      let reg_y_val ← sys.registers.get_gp comps.v2
      let holder := reg_x_val + reg_y_val
      let regs1 ← if holder > 255 then sys.registers.set_gp 15 1 else sys.registers.set_gp 15 0
      let regs2 ← regs1.set_gp comps.v1 (holder &&& 0xff)
      .ok { sys with registers := regs2 }
    | 0x5 => do
      let reg_x_val ← sys.registers.get_gp comps.v1
      let reg_y_val ← sys.registers.get_gp comps.v2
      let regs1 ← if reg_x_val < reg_y_val then sys.registers.set_gp 15 0
                  else sys.registers.set_gp 15 1
      if reg_x_val < reg_y_val then
        .error .arithOverflow
      else
        let regs2 ← regs1.set_gp comps.v1 (reg_x_val - reg_y_val)
        .ok { sys with registers := regs2 }
    | 0x6 => do
      let reg_x_val ← sys.registers.get_gp comps.v1
      let regs1 ← sys.registers.set_gp 15 (reg_x_val &&& 0x01)
      let regs2 ← regs1.set_gp comps.v1 (reg_x_val >>> 1)
      .ok { sys with registers := regs2 }
    | 0x7 => do
      let reg_x_val ← sys.registers.get_gp comps.v1
      let reg_y_val ← sys.registers.get_gp comps.v2
      let regs1 ← if reg_y_val < reg_x_val then sys.registers.set_gp 15 0
                  else sys.registers.set_gp 15 1
      if reg_y_val < reg_x_val then
        .error .arithOverflow
      else
        let regs2 ← regs1.set_gp comps.v1 (reg_y_val - reg_x_val)
        .ok { sys with registers := regs2 }
    | 0xE => do
      let reg_x_val ← sys.registers.get_gp comps.v1
      let regs1 ← sys.registers.set_gp 15 (reg_x_val &&& 0x80)
      let regs2 ← regs1.set_gp comps.v1 ((reg_x_val <<< 1) % 256)
      .ok { sys with registers := regs2 }
    | _ => .error .invalidInstruction
  | 0x9 => do
    let reg_x_val ← sys.registers.get_gp comps.v1
    let reg_y_val ← sys.registers.get_gp comps.v2
    if reg_x_val ≠ reg_y_val then
      let regs ← sys.registers.incr_pc
      .ok { sys with registers := regs }
    else
      .ok sys
  | 0xA =>
    let value := (comps.v1 <<< 8) + (comps.v2 <<< 4) + comps.v3
    .ok { sys with registers := sys.registers.set_i value }
  | 0xB => do
    let reg_v0_val ← sys.registers.get_gp 0
    let address := (comps.v1 <<< 8) + (comps.v2 <<< 4) + comps.v3
    .ok { sys with registers := sys.registers.set_pc (address + reg_v0_val) }
  | 0xC => do
    let byte_val := (comps.v2 <<< 4) + comps.v3
    let value := byte_val &&& (rand % 256)
    let regs ← sys.registers.set_gp comps.v1 value
    .ok { sys with registers := regs }
  | 0xD => .ok sys
  | 0xE =>
    match (comps.v2 <<< 4) + comps.v3 with
    | 0x9E => .ok sys
    | 0xA1 => .ok sys
    | _ => .error .invalidInstruction
  | 0xF =>
    match (comps.v2 <<< 4) + comps.v3 with
    | 0x07 => do
      let delay_val := sys.registers.get_d
      let regs ← sys.registers.set_gp comps.v1 delay_val
      .ok { sys with registers := regs }
    | 0x0A => .ok sys
    | 0x15 =>
      .ok { sys with registers := sys.registers.set_d comps.v1 }
    | 0x18 =>
      .ok { sys with registers := sys.registers.set_s comps.v1 }
    | 0x1E =>
      let i_val := sys.registers.get_i
      if i_val + comps.v1 < 65536 then
        .ok { sys with registers := sys.registers.set_i (i_val + comps.v1) }
      else
        .error .arithOverflow
    | 0x29 => .ok sys
    | 0x33 => do
      let reg_val ← sys.registers.get_gp comps.v1
      let i_val := sys.registers.get_i
      let ones := reg_val % 10
      let tens := (reg_val / 10) % 10
      let huns := (reg_val / 100) % 10
      let ram1 ← sys.ram.set_byte i_val huns
      if i_val + 1 < 65536 then
        let ram2 ← ram1.set_byte (i_val + 1) tens
        if i_val + 2 < 65536 then
          let ram3 ← ram2.set_byte (i_val + 2) ones
          .ok { sys with ram := ram3 }
        else
          .error .arithOverflow
      else
        .error .arithOverflow
    | 0x55 => do
      let i_val := sys.registers.get_i
      let x_range := comps.v1
      let sys1 ← sys.storeRegs i_val (List.range x_range)
      if i_val + x_range + 1 < 65536 then
        .ok { sys1 with registers := sys1.registers.set_i (i_val + x_range + 1) }
      else
        .error .arithOverflow
    | 0x65 => do
      let i_val := sys.registers.get_i
      let x_range := comps.v1
      sys.loadRegs i_val (List.range x_range)
    | _ => .error .invalidInstruction
  | _ => .error .invalidInstruction

/-- `ChipSystem::ex_opcode(opcode)`: decode, then dispatch.  The
console logging of the current opcode has no state effect and is
omitted. -/
def ChipSystem.ex_opcode (sys : ChipSystem) (rand : Nat) (opcode : Nat) :
    Except ChipErr ChipSystem :=
  sys.ex_decoded rand (Opcode.new opcode)

/-- `init_chip8()`. -/
def init_chip8 : ChipSystem :=
  { registers := ChipRegisters.init
    display := ChipDisplay.init
    ram := ChipMemory.init }

/-! ## Specification-side definitions

`specTableEntry` transcribes the dispatch table of the specification
(§4.4): it is `true` exactly on the header/sub-selector combinations the
table lists.  It is written from the specification's words, to be
compared with the engine's actual dispatch coverage. -/

/-- The specification's dispatch table (§4.4), on a decoded instruction:
header 0x0 with low nibble 0x0 or 0xE; headers 0x1–0x7 unconditionally;
header 0x8 with sub-selector 0x0–0x7 or 0xE; headers 0x9–0xD
unconditionally; header 0xE with low byte 0x9E or 0xA1; header 0xF with
low byte 0x07, 0x0A, 0x15, 0x18, 0x1E, 0x29, 0x33, 0x55 or 0x65. -/
def specTableEntry (c : Opcode) : Bool :=
  match c.h1 with
  | 0x0 => c.v3 == 0x0 || c.v3 == 0xE
  | 0x1 | 0x2 | 0x3 | 0x4 | 0x5 | 0x6 | 0x7 => true
  | 0x8 =>
    c.v3 == 0x0 || c.v3 == 0x1 || c.v3 == 0x2 || c.v3 == 0x3 || c.v3 == 0x4 ||
      c.v3 == 0x5 || c.v3 == 0x6 || c.v3 == 0x7 || c.v3 == 0xE
  | 0x9 | 0xA | 0xB | 0xC | 0xD => true
  | 0xE =>
    (c.v2 <<< 4) + c.v3 == 0x9E || (c.v2 <<< 4) + c.v3 == 0xA1
  | 0xF =>
    (c.v2 <<< 4) + c.v3 == 0x07 || (c.v2 <<< 4) + c.v3 == 0x0A ||
      (c.v2 <<< 4) + c.v3 == 0x15 || (c.v2 <<< 4) + c.v3 == 0x18 ||
      (c.v2 <<< 4) + c.v3 == 0x1E || (c.v2 <<< 4) + c.v3 == 0x29 ||
      (c.v2 <<< 4) + c.v3 == 0x33 || (c.v2 <<< 4) + c.v3 == 0x55 ||
      (c.v2 <<< 4) + c.v3 == 0x65
  | _ => false

/-- The specification's dispatch table on a raw 16-bit word. -/
def specDispatchTable (op : Nat) : Bool :=
  specTableEntry (Opcode.new op)

/-- The comparison condition of the four skip opcodes, read off the
source's `if` guards: `Vx == kk` (0x3), `Vx != kk` (0x4), `Vx == Vy`
(0x5), `Vx != Vy` (0x9). -/
def skipCond (sys : ChipSystem) (c : Opcode) : Bool :=
  let vx := sys.registers.gp_reg.getD c.v1 0
  let vy := sys.registers.gp_reg.getD c.v2 0
  let kk := (c.v2 <<< 4) + c.v3
  match c.h1 with
  | 0x3 => kk == vx
  | 0x4 => kk != vx
  | 0x5 => vx == vy
  | 0x9 => vx != vy
  | _ => false

/-- Driver for the specification's stack scenario (§8): push a list of
addresses one after another with `push_stack`. -/
def ChipRegisters.pushList (r : ChipRegisters) : List Nat → Except ChipErr ChipRegisters
  | [] => .ok r
  | a :: rest => do
    let r2 ← r.push_stack a
    ChipRegisters.pushList r2 rest

/-! ## Helper lemmas -/

theorem and_fifteen (x : Nat) : x &&& 15 = x % 16 := by
  have h := Nat.and_pow_two_sub_one_eq_mod x 4
  norm_num at h
  exact h

theorem Opcode.new_h1_lt (op : Nat) : (Opcode.new op).h1 < 16 :=
  Nat.lt_succ_of_le (Nat.and_le_right)

theorem Opcode.new_v1_lt (op : Nat) : (Opcode.new op).v1 < 16 :=
  Nat.lt_succ_of_le (Nat.and_le_right)

theorem Opcode.new_v2_lt (op : Nat) : (Opcode.new op).v2 < 16 :=
  Nat.lt_succ_of_le (Nat.and_le_right)

theorem Opcode.new_v3_lt (op : Nat) : (Opcode.new op).v3 < 16 :=
  Nat.lt_succ_of_le (Nat.and_le_right)

theorem ChipRegisters.get_gp_eq_getD (r : ChipRegisters) (i : Nat)
    (h : i < r.gp_reg.length) : r.get_gp i = .ok (r.gp_reg.getD i 0) := by
  simp [ChipRegisters.get_gp, h, List.getD_eq_getElem?_getD, List.getElem?_eq_getElem h,
    List.get_eq_getElem]

theorem ChipRegisters.pushList_ok (addrs : List Nat) :
    ∀ r : ChipRegisters, r.sp_reg + addrs.length ≤ r.stack.length →
      ∃ r2, r.pushList addrs = .ok r2 ∧ r2.sp_reg = r.sp_reg + addrs.length ∧
        r2.stack.length = r.stack.length := by
  induction addrs with
  | nil => intro r _; exact ⟨r, rfl, by simp, rfl⟩
  | cons a rest ih =>
    intro r hle
    have hlt : r.sp_reg < r.stack.length := by
      simp only [List.length_cons] at hle; omega
    have hpush : r.push_stack a =
        .ok { r with stack := r.stack.set r.sp_reg a, sp_reg := r.sp_reg + 1 } := by
      simp [ChipRegisters.push_stack, hlt]
    obtain ⟨r2, h1, h2, h3⟩ :=
      ih { r with stack := r.stack.set r.sp_reg a, sp_reg := r.sp_reg + 1 }
        (by simp only [List.length_set, List.length_cons] at *; omega)
    refine ⟨r2, ?_, ?_, ?_⟩
    · simp only [ChipRegisters.pushList, hpush]
      exact h1
    · simp only [h2, List.length_cons]; omega
    · simpa using h3

theorem loadBytesAux_length (rom : List Nat) :
    ∀ ram pos, (loadBytesAux ram pos rom).1.length = ram.length := by
  induction rom with
  | nil => intro ram pos; rfl
  | cons b rest ih =>
    intro ram pos
    by_cases h : pos < ram.length
    · simp only [loadBytesAux, if_pos h, ih]; simp
    · simp [loadBytesAux, if_neg h]

theorem loadBytesAux_fail (rom : List Nat) :
    ∀ ram pos, rom ≠ [] → ram.length < pos + rom.length →
      (loadBytesAux ram pos rom).2 = false := by
  induction rom with
  | nil => intro ram pos hne _; exact absurd rfl hne
  | cons b rest ih =>
    intro ram pos _ hlen
    by_cases h : pos < ram.length
    · have hrest : rest ≠ [] := by
        intro hr
        subst hr
        simp only [List.length_cons, List.length_nil] at hlen
        omega
      simp only [loadBytesAux, if_pos h]
      apply ih _ _ hrest
      simp only [List.length_set, List.length_cons] at *
      omega
    · simp [loadBytesAux, if_neg h]

theorem loadBytesAux_get_lt (rom : List Nat) :
    ∀ ram pos j, j < pos → (loadBytesAux ram pos rom).1.get? j = ram.get? j := by
  induction rom with
  | nil => intro ram pos j _; rfl
  | cons b rest ih =>
    intro ram pos j hj
    by_cases h : pos < ram.length
    · simp only [loadBytesAux, if_pos h]
      rw [ih _ _ _ (Nat.lt_succ_of_lt hj)]
      simp only [List.get?_eq_getElem?]
      exact List.getElem?_set_ne (by omega)
    · simp [loadBytesAux, if_neg h]

theorem loadBytesAux_get_first (b : Nat) (rest : List Nat) (ram : List Nat) (pos : Nat)
    (h : pos < ram.length) :
    (loadBytesAux ram pos (b :: rest)).1.get? pos = some b := by
  simp only [loadBytesAux, if_pos h]
  rw [loadBytesAux_get_lt rest _ _ _ (Nat.lt_succ_self pos)]
  simp only [List.get?_eq_getElem?]
  rw [List.getElem?_set_self (by simpa using h)]

theorem ChipMemory.load_bytes_def (m : ChipMemory) (rom : List Nat) :
    m.load_bytes rom =
      ({ m with ram := (loadBytesAux m.ram m.start rom).1 },
        (loadBytesAux m.ram m.start rom).2) := rfl

theorem ChipMemory.load_bytes_snd (m : ChipMemory) (rom : List Nat) :
    (m.load_bytes rom).2 = (loadBytesAux m.ram m.start rom).2 := rfl

theorem ChipMemory.load_bytes_fst_ram (m : ChipMemory) (rom : List Nat) :
    (m.load_bytes rom).1.ram = (loadBytesAux m.ram m.start rom).1 := rfl

theorem ChipMemory.init_ram : ChipMemory.init.ram = List.replicate 4096 0 := rfl

theorem ChipMemory.init_start : ChipMemory.init.start = 512 := rfl

theorem exceptOkBind {ε α β : Type} (v : α) (f : α → Except ε β) :
    (Except.ok v : Except ε α) >>= f = f v := rfl

theorem exceptErrBind {ε α β : Type} (e : ε) (f : α → Except ε β) :
    (Except.error e : Except ε α) >>= f = Except.error e := rfl

/-! ## Concrete states used to exhibit code bugs and counterexamples -/

/-- The freshly initialised system with general register 1 set to 7. -/
def stateV1is7 : ChipSystem :=
  { init_chip8 with registers :=
      { ChipRegisters.init with gp_reg := (List.replicate 16 0).set 1 7 } }

/-- The freshly initialised system with general register 1 set to 1. -/
def stateV1is1 : ChipSystem :=
  { init_chip8 with registers :=
      { ChipRegisters.init with gp_reg := (List.replicate 16 0).set 1 1 } }

/-- The freshly initialised system with general register 0 set to 7. -/
def stateV0is7 : ChipSystem :=
  { init_chip8 with registers :=
      { ChipRegisters.init with gp_reg := (List.replicate 16 0).set 0 7 } }

/-- The freshly initialised system with general register 1 set to 10. -/
def stateV1is10 : ChipSystem :=
  { init_chip8 with registers :=
      { ChipRegisters.init with gp_reg := (List.replicate 16 0).set 1 10 } }

/-! ## Claim theorems -/

/-- C1: the claim says opcode 0xFx15 sets the delay timer to the value
of general register x and 0xFx18 sets the sound timer likewise.  The
code instead loads the register *index* x (`comps.v1 as u8`) into the
timer, contradicting its own comments (`LD DT, Vx - Set the delay timer
to the value in Vx`).  Exhibit: with V1 = 7, executing 0xF115 leaves the
delay timer at 1 (the nibble), not 7, and 0xF118 leaves the sound timer
at 1, not 7. -/
theorem C1_timer_gets_nibble_not_register :
    stateV1is7.registers.gp_reg.getD 1 0 = 7 ∧
    (stateV1is7.ex_opcode 0 0xF115).map (fun s => s.registers.d_reg) = .ok 1 ∧
    (stateV1is7.ex_opcode 0 0xF118).map (fun s => s.registers.s_reg) = .ok 1 :=
  ⟨rfl, rfl, rfl⟩

/-- C2: the claim says SUB (0x8xy5) wraps modulo 256 on underflow and
never fails.  The code computes `reg_x_val - reg_y_val` with raw `u8`
subtraction, which traps in the default (debug) build when Vx < Vy — the
specification itself flags this trap as a defect (§4.4, §9).  Exhibit:
with V0 = 0, V1 = 1, executing 0x8015 aborts with an arithmetic-overflow
panic (after having already set the flag register), instead of storing
255 in V0. -/
theorem C2_sub_traps_on_underflow :
    stateV1is1.registers.gp_reg.getD 0 0 = 0 ∧
    stateV1is1.registers.gp_reg.getD 1 0 = 1 ∧
    stateV1is1.ex_opcode 0 0x8015 = .error .arithOverflow :=
  ⟨rfl, rfl, rfl⟩

/-- C3: the claim says opcode 0xFx55 stores registers 0 through x
*inclusive* (x+1 registers).  The code's loop `for loc in 0..x_range`
is exclusive: it stores only registers 0..x−1, contradicting its own
comment (`Stores V0 to Vx`).  Exhibit: with V0 = 7 and I = 0, executing
0xF055 (x = 0) stores nothing — memory cell 0 stays 0 although the claim
requires it to become V0 = 7 — while I is advanced to 0+0+1 = 1 as
claimed. -/
theorem C3_store_range_excludes_vx :
    stateV0is7.registers.gp_reg.getD 0 0 = 7 ∧
    stateV0is7.registers.i_reg = 0 ∧
    (stateV0is7.ex_opcode 0 0xF055).map
      (fun s => (s.ram.ram.getD 0 999, s.registers.i_reg)) = .ok (0, 1) :=
  ⟨rfl, rfl, rfl⟩

/-- C4: the claim says opcode 0xFx1E adds the value of general register
x to the index register.  The code computes `i_val + comps.v1`: it adds
the register *index* x, not Vx, contradicting its own comment
(`ADD I, Vx - Set register I to I + Vx`).  Exhibit: with V1 = 10 and
I = 0, executing 0xF11E leaves I = 1 (the nibble), not 10. -/
theorem C4_addi_adds_nibble_not_register :
    stateV1is10.registers.gp_reg.getD 1 0 = 10 ∧
    stateV1is10.registers.i_reg = 0 ∧
    (stateV1is10.ex_opcode 0 0xF11E).map (fun s => s.registers.i_reg) = .ok 1 :=
  ⟨rfl, rfl, rfl⟩

/-- C10: executing any of the unimplemented opcodes — 0xDxyn, 0xEx9E,
0xExA1, 0xFx0A, 0xFx29 — returns successfully with the entire machine
state (memory, registers, timers, program counter, index register, call
stack, display buffer) unchanged: the result is `.ok` of the very same
state. -/
theorem C10_unimplemented_opcodes_are_noops (sys : ChipSystem) (rand op : Nat)
    (h : (Opcode.new op).h1 = 0xD ∨
      ((Opcode.new op).h1 = 0xE ∧
        (((Opcode.new op).v2 <<< 4) + (Opcode.new op).v3 = 0x9E ∨
          ((Opcode.new op).v2 <<< 4) + (Opcode.new op).v3 = 0xA1)) ∨
      ((Opcode.new op).h1 = 0xF ∧
        (((Opcode.new op).v2 <<< 4) + (Opcode.new op).v3 = 0x0A ∨
          ((Opcode.new op).v2 <<< 4) + (Opcode.new op).v3 = 0x29))) :
    sys.ex_opcode rand op = .ok sys := by
  have hv3 := Opcode.new_v3_lt op
  unfold ChipSystem.ex_opcode
  rcases hc : Opcode.new op with ⟨a, b, c2, c3⟩
  rw [hc] at h hv3
  simp only at h hv3
  rw [Nat.shiftLeft_eq] at h
  norm_num at h
  rcases h with h | ⟨h14, h | h⟩ | ⟨h15, h | h⟩
  · subst h; rfl
  · subst h14
    obtain ⟨h2, h3⟩ : c2 = 9 ∧ c3 = 14 := by omega
    subst h2; subst h3; rfl
  · subst h14
    obtain ⟨h2, h3⟩ : c2 = 10 ∧ c3 = 1 := by omega
    subst h2; subst h3; rfl
  · subst h15
    obtain ⟨h2, h3⟩ : c2 = 0 ∧ c3 = 10 := by omega
    subst h2; subst h3; rfl
  · subst h15
    obtain ⟨h2, h3⟩ : c2 = 2 ∧ c3 = 9 := by omega
    subst h2; subst h3; rfl

/-- Witness for C10: the draw-sprite opcode 0xD123 on the freshly
initialised system is a silent no-op. -/
theorem C10_witness :
    (Opcode.new 0xD123).h1 = 0xD ∧ init_chip8.ex_opcode 0 0xD123 = .ok init_chip8 :=
  ⟨rfl, C10_unimplemented_opcodes_are_noops init_chip8 0 0xD123 (Or.inl rfl)⟩

/-- C7: starting from an empty stack of capacity 16, pushing any 16
addresses succeeds (leaving the stack pointer at 16), a 17th push then
fails with `StackOverflow`, popping the empty stack fails with
`StackUnderflow`, and for every non-full stack, `push A` immediately
followed by `pop` returns A. -/
theorem C7_stack_discipline (r rp : ChipRegisters) (addrs : List Nat) (A B : Nat)
    (h0 : r.sp_reg = 0) (hlen : r.stack.length = 16) (haddrs : addrs.length = 16)
    (hp : rp.sp_reg < 16) (hplen : rp.stack.length = 16) :
    (r.pushList addrs).map (fun r2 => r2.sp_reg) = .ok 16 ∧
    ((r.pushList addrs) >>= (fun r2 => r2.push_stack B)) = .error .stackOverflow ∧
    r.pop_stack = .error .stackUnderflow ∧
    ((rp.push_stack A >>= ChipRegisters.pop_stack).map Prod.fst) = .ok A := by
  obtain ⟨r2, he, hsp, hsl⟩ := ChipRegisters.pushList_ok addrs r (by omega)
  refine ⟨?_, ?_, ?_, ?_⟩
  · rw [he]
    simp [Except.map, hsp, h0, haddrs]
  · rw [he, exceptOkBind]
    have : ¬ r2.sp_reg < r2.stack.length := by omega
    simp [ChipRegisters.push_stack, this]
  · simp [ChipRegisters.pop_stack, h0]
  · have hpush : rp.push_stack A =
        .ok { rp with stack := rp.stack.set rp.sp_reg A, sp_reg := rp.sp_reg + 1 } := by
      simp [ChipRegisters.push_stack, hplen, hp]
    rw [hpush, exceptOkBind]
    have hlt : rp.sp_reg < (rp.stack.set rp.sp_reg A).length := by
      simp [hplen]; omega
    simp only [ChipRegisters.pop_stack, Nat.add_sub_cancel, Nat.succ_ne_zero, if_false]
    rw [dif_pos hlt]
    simp [Except.map, List.get_eq_getElem]

/-- Witness for C7: the stack scenario at the freshly initialised
register file, pushing sixteen addresses of value 5, then 9, and the
push/pop roundtrip of the address 7. -/
theorem C7_witness :
    (ChipRegisters.init.pushList (List.replicate 16 5)).map (fun r2 => r2.sp_reg) = .ok 16 ∧
    ((ChipRegisters.init.pushList (List.replicate 16 5)) >>=
      (fun r2 => r2.push_stack 9)) = .error .stackOverflow ∧
    ChipRegisters.init.pop_stack = .error .stackUnderflow ∧
    ((ChipRegisters.init.push_stack 7 >>= ChipRegisters.pop_stack).map Prod.fst) = .ok 7 :=
  C7_stack_discipline ChipRegisters.init ChipRegisters.init (List.replicate 16 5) 7 9
    rfl rfl rfl (by decide) rfl

/-- C5 counterexample: feeding 3585 bytes of value 1 to `load_bytes`
does fail (the success flag is `false`, recording the index-out-of-
bounds panic), but memory cell 512 — 0 before the load — already holds
the first ROM byte at the moment of the failure: memory IS partially
overwritten, contradicting the claim's "memory cells are not partially
overwritten on this failure". -/
theorem C5_counterexample :
    (ChipMemory.init.load_bytes (List.replicate 3585 1)).2 = false ∧
    ChipMemory.init.ram.get? 512 = some 0 ∧
    (ChipMemory.init.load_bytes (List.replicate 3585 1)).1.ram.get? 512 = some 1 := by
  have hsnd := ChipMemory.load_bytes_snd ChipMemory.init (List.replicate 3585 1)
  have hfst := ChipMemory.load_bytes_fst_ram ChipMemory.init (List.replicate 3585 1)
  rw [ChipMemory.init_ram, ChipMemory.init_start] at hsnd hfst
  have hfail : (loadBytesAux (List.replicate 4096 0) 512 (List.replicate 3585 1)).2 = false :=
    loadBytesAux_fail (List.replicate 3585 1) (List.replicate 4096 0) 512
      (List.replicate_succ_ne_nil 3584 1)
      (by simp only [List.length_replicate]; omega)
  have hget : (loadBytesAux (List.replicate 4096 0) 512 (List.replicate 3585 1)).1.get? 512 =
      some 1 :=
    loadBytesAux_get_first 1 (List.replicate 3584 1) (List.replicate 4096 0) 512
      (by simp only [List.length_replicate]; omega)
  refine ⟨hsnd.trans hfail, ?_, (congrArg (fun l => l.get? 512) hfst).trans hget⟩
  show (List.replicate 4096 0).get? 512 = some 0
  simp only [List.get?_eq_getElem?]
  exact List.getElem?_replicate_of_lt (by omega)

/-- C5 amended: feeding more than 3584 bytes to ROM ingestion produces a
fatal load error (the unchecked copy loop hits the index-out-of-bounds
panic) rather than silently truncating, and never writes past the
4096-byte memory bound (the memory length is unchanged); however the
in-bounds cells are overwritten before the failure, so memory IS left
partially mutated (see the counterexample). -/
theorem C5_oversized_rom_fails (m : ChipMemory) (rom : List Nat)
    (hram : m.ram.length = 4096) (hstart : m.start = 512) (hrom : rom.length > 3584) :
    (m.load_bytes rom).2 = false ∧ (m.load_bytes rom).1.ram.length = 4096 := by
  constructor
  · rw [ChipMemory.load_bytes_snd]
    apply loadBytesAux_fail
    · intro hnil
      rw [hnil] at hrom
      simp at hrom
    · omega
  · rw [ChipMemory.load_bytes_fst_ram, loadBytesAux_length]
    exact hram

/-- Witness for C5: the freshly initialised memory and a 3585-byte ROM. -/
theorem C5_witness :
    ChipMemory.init.ram.length = 4096 ∧ ChipMemory.init.start = 512 ∧
    (List.replicate 3585 0).length > 3584 ∧
    ((ChipMemory.init.load_bytes (List.replicate 3585 0)).2 = false ∧
      (ChipMemory.init.load_bytes (List.replicate 3585 0)).1.ram.length = 4096) :=
  ⟨by rw [ChipMemory.init_ram, List.length_replicate],
    rfl,
    by simp only [List.length_replicate]; omega,
    C5_oversized_rom_fails ChipMemory.init (List.replicate 3585 0)
      (by rw [ChipMemory.init_ram, List.length_replicate]) rfl
      (by simp only [List.length_replicate]; omega)⟩

/-- C9 (amended): for every state with the full 16-register file whose
program counter still admits the +2 increment (pc + 2 ≤ 0xFFFF), each of
the skip opcodes 0x3, 0x4, 0x5, 0x9 returns successfully with the
program counter exactly 2 larger when its comparison condition holds and
exactly unchanged when it does not, and with every other component of
the state unchanged: the result is the input state with only `pc_reg`
replaced.  (Without the bound on the program counter the claim fails:
the `u16` increment traps, see the counterexample.) -/
theorem C9_skip_advances_pc (sys : ChipSystem) (rand op : Nat)
    (hlen : sys.registers.gp_reg.length = 16)
    (hpc : sys.registers.pc_reg + 2 < 65536)
    (hh : (Opcode.new op).h1 = 0x3 ∨ (Opcode.new op).h1 = 0x4 ∨
      (Opcode.new op).h1 = 0x5 ∨ (Opcode.new op).h1 = 0x9) :
    sys.ex_opcode rand op =
      .ok { sys with registers := { sys.registers with
        pc_reg := sys.registers.pc_reg +
          (if skipCond sys (Opcode.new op) then 2 else 0) } } := by
  have hb := Opcode.new_v1_lt op
  have hc := Opcode.new_v2_lt op
  unfold ChipSystem.ex_opcode
  rcases hop : Opcode.new op with ⟨a, b, c2, c3⟩
  rw [hop] at hh
  have hgetb : sys.registers.get_gp b = .ok (sys.registers.gp_reg.getD b 0) :=
    ChipRegisters.get_gp_eq_getD _ _ (by rw [hop] at hb; simp only at hb; omega)
  have hgetc : sys.registers.get_gp c2 = .ok (sys.registers.gp_reg.getD c2 0) :=
    ChipRegisters.get_gp_eq_getD _ _ (by rw [hop] at hc; simp only at hc; omega)
  have hincr : sys.registers.incr_pc =
      .ok { sys.registers with pc_reg := sys.registers.pc_reg + 2 } := by
    simp only [ChipRegisters.incr_pc, if_pos hpc]
  simp only at hh
  rcases hh with h | h | h | h <;> subst h
  · have hred : sys.ex_decoded rand ⟨3, b, c2, c3⟩ =
        (sys.registers.get_gp b >>= fun reg_val =>
          if (c2 <<< 4) + c3 = reg_val then
            sys.registers.incr_pc >>= fun regs => Except.ok { sys with registers := regs }
          else Except.ok sys) := rfl
    have hskip : skipCond sys ⟨3, b, c2, c3⟩ =
        ((c2 <<< 4) + c3 == sys.registers.gp_reg.getD b 0) := rfl
    rw [hred, hskip]
    simp only [hgetb, exceptOkBind]
    by_cases hcond : (c2 <<< 4) + c3 = sys.registers.gp_reg.getD b 0
    · simp only [if_pos hcond, hincr, exceptOkBind, hcond, beq_self_eq_true, if_true]
    · simp only [if_neg hcond, beq_eq_false_iff_ne.mpr hcond, Bool.false_eq_true, if_false,
        Nat.add_zero]
  · have hred : sys.ex_decoded rand ⟨4, b, c2, c3⟩ =
        (sys.registers.get_gp b >>= fun reg_val =>
          if (c2 <<< 4) + c3 ≠ reg_val then
            sys.registers.incr_pc >>= fun regs => Except.ok { sys with registers := regs }
          else Except.ok sys) := rfl
    have hskip : skipCond sys ⟨4, b, c2, c3⟩ =
        ((c2 <<< 4) + c3 != sys.registers.gp_reg.getD b 0) := rfl
    rw [hred, hskip]
    simp only [hgetb, exceptOkBind]
    by_cases hcond : (c2 <<< 4) + c3 = sys.registers.gp_reg.getD b 0
    · simp only [hcond, ne_eq, not_true_eq_false, if_false, bne_self_eq_false,
        Bool.false_eq_true, Nat.add_zero]
    · simp only [ne_eq, hcond, not_false_eq_true, if_true, hincr, exceptOkBind,
        bne_iff_ne, if_pos hcond]
  · have hred : sys.ex_decoded rand ⟨5, b, c2, c3⟩ =
        (sys.registers.get_gp b >>= fun reg_x_val =>
          sys.registers.get_gp c2 >>= fun reg_y_val =>
          if reg_x_val = reg_y_val then
            sys.registers.incr_pc >>= fun regs => Except.ok { sys with registers := regs }
          else Except.ok sys) := rfl
    have hskip : skipCond sys ⟨5, b, c2, c3⟩ =
        (sys.registers.gp_reg.getD b 0 == sys.registers.gp_reg.getD c2 0) := rfl
    rw [hred, hskip]
    simp only [hgetb, hgetc, exceptOkBind]
    by_cases hcond : sys.registers.gp_reg.getD b 0 = sys.registers.gp_reg.getD c2 0
    · simp only [if_pos hcond, hincr, exceptOkBind, hcond, beq_self_eq_true, if_true]
    · simp only [if_neg hcond, beq_eq_false_iff_ne.mpr hcond, Bool.false_eq_true, if_false,
        Nat.add_zero]
  · have hred : sys.ex_decoded rand ⟨9, b, c2, c3⟩ =
        (sys.registers.get_gp b >>= fun reg_x_val =>
          sys.registers.get_gp c2 >>= fun reg_y_val =>
          if reg_x_val ≠ reg_y_val then
            sys.registers.incr_pc >>= fun regs => Except.ok { sys with registers := regs }
          else Except.ok sys) := rfl
    have hskip : skipCond sys ⟨9, b, c2, c3⟩ =
        (sys.registers.gp_reg.getD b 0 != sys.registers.gp_reg.getD c2 0) := rfl
    rw [hred, hskip]
    simp only [hgetb, hgetc, exceptOkBind]
    by_cases hcond : sys.registers.gp_reg.getD b 0 = sys.registers.gp_reg.getD c2 0
    · simp only [hcond, ne_eq, not_true_eq_false, if_false, bne_self_eq_false,
        Bool.false_eq_true, Nat.add_zero]
    · simp only [ne_eq, hcond, not_false_eq_true, if_true, hincr, exceptOkBind,
        bne_iff_ne, if_pos hcond]

/-- The freshly initialised system with the program counter at 65534,
the largest `u16` value for which `pc + 2` overflows. -/
def statePC65534 : ChipSystem :=
  { init_chip8 with registers := { ChipRegisters.init with pc_reg := 65534 } }

/-- C9 counterexample: at program counter 65534 the condition of opcode
0x3000 holds (V0 = 0 equals the immediate 0), but instead of leaving the
program counter exactly 2 larger, execution aborts with the `u16`
overflow trap of `pc_reg += 2`. -/
theorem C9_counterexample :
    skipCond statePC65534 (Opcode.new 0x3000) = true ∧
    statePC65534.ex_opcode 0 0x3000 = .error .arithOverflow :=
  ⟨rfl, rfl⟩

/-- Witness for C9: opcode 0x3000 on the freshly initialised system. -/
theorem C9_witness :
    init_chip8.registers.gp_reg.length = 16 ∧
    init_chip8.registers.pc_reg + 2 < 65536 ∧
    (Opcode.new 0x3000).h1 = 0x3 ∧
    init_chip8.ex_opcode 0 0x3000 =
      .ok { init_chip8 with registers := { init_chip8.registers with
        pc_reg := init_chip8.registers.pc_reg +
          (if skipCond init_chip8 (Opcode.new 0x3000) then 2 else 0) } } :=
  ⟨rfl, by decide, rfl,
    C9_skip_advances_pc init_chip8 0 0x3000 rfl (by decide) (Or.inl rfl)⟩

/-- C8 (amended): for every state with the full 16-register file,
executing opcode 0x8xy4 with x ≠ 15 sets the flag register (register
15) to 0 and Vx to the exact sum when Vx + Vy ≤ 255, and sets the flag
register to 1 and Vx to the sum modulo 256 when the sum exceeds 255.
(For x = 15 the claim fails as stated: the stored sum overwrites the
flag register — see the counterexample.) -/
theorem C8_add_sets_carry_and_sum (sys : ChipSystem) (rand op : Nat)
    (hlen : sys.registers.gp_reg.length = 16)
    (hh : (Opcode.new op).h1 = 0x8) (hl : (Opcode.new op).v3 = 0x4)
    (hx : (Opcode.new op).v1 ≠ 15) :
    (sys.ex_opcode rand op).map
        (fun s => (s.registers.gp_reg.getD 15 0,
          s.registers.gp_reg.getD (Opcode.new op).v1 0)) =
      .ok (if sys.registers.gp_reg.getD (Opcode.new op).v1 0 +
            sys.registers.gp_reg.getD (Opcode.new op).v2 0 > 255
        then (1, (sys.registers.gp_reg.getD (Opcode.new op).v1 0 +
            sys.registers.gp_reg.getD (Opcode.new op).v2 0) % 256)
        else (0, sys.registers.gp_reg.getD (Opcode.new op).v1 0 +
            sys.registers.gp_reg.getD (Opcode.new op).v2 0)) := by
  have hb := Opcode.new_v1_lt op
  have hc := Opcode.new_v2_lt op
  unfold ChipSystem.ex_opcode
  rcases hop : Opcode.new op with ⟨a, b, c2, c3⟩
  rw [hop] at hh hl hx hb hc
  simp only at hh hl hx hb hc ⊢
  subst hh; subst hl
  have hgetb : sys.registers.get_gp b = .ok (sys.registers.gp_reg.getD b 0) :=
    ChipRegisters.get_gp_eq_getD _ _ (by omega)
  have hgetc : sys.registers.get_gp c2 = .ok (sys.registers.gp_reg.getD c2 0) :=
    ChipRegisters.get_gp_eq_getD _ _ (by omega)
  have hred : sys.ex_decoded rand ⟨8, b, c2, 4⟩ =
      (sys.registers.get_gp b >>= fun reg_x_val =>
        sys.registers.get_gp c2 >>= fun reg_y_val =>
        if reg_x_val + reg_y_val > 255 then
          sys.registers.set_gp 15 1 >>= fun regs1 =>
          regs1.set_gp b ((reg_x_val + reg_y_val) &&& 0xff) >>= fun regs2 =>
          Except.ok { sys with registers := regs2 }
        else
          sys.registers.set_gp 15 0 >>= fun regs1 =>
          regs1.set_gp b ((reg_x_val + reg_y_val) &&& 0xff) >>= fun regs2 =>
          Except.ok { sys with registers := regs2 }) := rfl
  rw [hred]
  simp only [hgetb, hgetc, exceptOkBind]
  set vx := sys.registers.gp_reg.getD b 0 with hvx
  set vy := sys.registers.gp_reg.getD c2 0 with hvy
  have hand : (vx + vy) &&& 0xff = (vx + vy) % 256 := Nat.and_pow_two_sub_one_eq_mod _ 8
  by_cases hover : vx + vy > 255
  · simp only [if_pos hover]
    simp [ChipRegisters.set_gp, hlen, hb, exceptOkBind, Except.map, hand,
      List.getD_eq_getElem?_getD, List.getElem?_set_ne hx, hover]
  · have hlt : vx + vy < 256 := by omega
    simp only [if_neg hover]
    simp [ChipRegisters.set_gp, hlen, hb, exceptOkBind, Except.map, hand,
      List.getD_eq_getElem?_getD, List.getElem?_set_ne hx, hover, Nat.mod_eq_of_lt hlt]

/-- The freshly initialised system with general register 15 set to 3. -/
def stateV15is3 : ChipSystem :=
  { init_chip8 with registers :=
      { ChipRegisters.init with gp_reg := (List.replicate 16 0).set 15 3 } }

/-- C8 counterexample: opcode 0x8F04 (x = 15, y = 0) with V15 = 3 and
V0 = 0.  The operands sum to 3 ≤ 255, so the claim requires the flag
register to become 0; but the flag register IS V15 = Vx here, and the
code writes the carry flag first and then overwrites it with the sum:
afterwards the flag register holds 3, not 0. -/
theorem C8_counterexample :
    stateV15is3.registers.gp_reg.getD 15 0 + stateV15is3.registers.gp_reg.getD 0 0 ≤ 255 ∧
    (stateV15is3.ex_opcode 0 0x8F04).map (fun s => s.registers.gp_reg.getD 15 0) = .ok 3 ∧
    (3 : Nat) ≠ 0 :=
  ⟨by decide, rfl, by decide⟩

/-- Witness for C8: opcode 0x8124 (x = 1, y = 2) on the system with
V1 = 7: the sum 7 is below 256, the flag register becomes 0 and V1
keeps the exact sum 7. -/
theorem C8_witness :
    stateV1is7.registers.gp_reg.length = 16 ∧
    (Opcode.new 0x8124).h1 = 0x8 ∧ (Opcode.new 0x8124).v3 = 0x4 ∧
    (Opcode.new 0x8124).v1 ≠ 15 ∧
    (stateV1is7.ex_opcode 0 0x8124).map
        (fun s => (s.registers.gp_reg.getD 15 0,
          s.registers.gp_reg.getD (Opcode.new 0x8124).v1 0)) =
      .ok (if stateV1is7.registers.gp_reg.getD (Opcode.new 0x8124).v1 0 +
            stateV1is7.registers.gp_reg.getD (Opcode.new 0x8124).v2 0 > 255
        then (1, (stateV1is7.registers.gp_reg.getD (Opcode.new 0x8124).v1 0 +
            stateV1is7.registers.gp_reg.getD (Opcode.new 0x8124).v2 0) % 256)
        else (0, stateV1is7.registers.gp_reg.getD (Opcode.new 0x8124).v1 0 +
            stateV1is7.registers.gp_reg.getD (Opcode.new 0x8124).v2 0)) :=
  ⟨rfl, rfl, rfl, by decide,
    C8_add_sets_carry_and_sum stateV1is7 0 0x8124 rfl rfl rfl (by decide)⟩

/-- C6: every 16-bit instruction word whose header/sub-selector pair is
not listed in the specification's dispatch table (§4.4) fails with
`InvalidInstruction`, whatever the machine state — no such word is a
silent no-op. -/
theorem C6_invalid_instruction_errors (sys : ChipSystem) (rand op : Nat)
    (hop : op < 65536) (h : specDispatchTable op = false) :
    sys.ex_opcode rand op = .error .invalidInstruction := by
  unfold ChipSystem.ex_opcode
  unfold specDispatchTable at h
  have ha := Opcode.new_h1_lt op
  have h2 := Opcode.new_v2_lt op
  have h3 := Opcode.new_v3_lt op
  rcases hc : Opcode.new op with ⟨a, b, c2, c3⟩
  rw [hc] at h ha h2 h3
  simp only at ha h2 h3
  interval_cases a
  · interval_cases c3 <;> first | rfl | exact Bool.noConfusion h
  · exact Bool.noConfusion h
  · exact Bool.noConfusion h
  · exact Bool.noConfusion h
  · exact Bool.noConfusion h
  · exact Bool.noConfusion h
  · exact Bool.noConfusion h
  · exact Bool.noConfusion h
  · interval_cases c3 <;> first | rfl | exact Bool.noConfusion h
  · exact Bool.noConfusion h
  · exact Bool.noConfusion h
  · exact Bool.noConfusion h
  · exact Bool.noConfusion h
  · exact Bool.noConfusion h
  · interval_cases c2 <;> interval_cases c3 <;> first | rfl | exact Bool.noConfusion h
  · interval_cases c2 <;> interval_cases c3 <;> first | rfl | exact Bool.noConfusion h

/-- Witness for C6: the word 0x0001 (header 0x0, low nibble 0x1) is not
in the dispatch table and fails with `InvalidInstruction` on the freshly
initialised system. -/
theorem C6_witness :
    (0x0001 : Nat) < 65536 ∧ specDispatchTable 0x0001 = false ∧
    init_chip8.ex_opcode 0 0x0001 = .error .invalidInstruction :=
  ⟨by decide, by decide,
    C6_invalid_instruction_errors init_chip8 0 0x0001 (by decide) (by decide)⟩

end Chip8
